import Mathlib

/-!
Verification of the incremental change-detection core of git-digest.

The Python sources are embedded shallowly:

* `DT` models a naive UTC datetime at seconds precision.  The code stores
  tag timestamps as strings in the fixed format `%Y-%m-%d %H:%M:%S`
  (`_tag_commit_datetime_utc`) and re-parses them with the matching
  `strptime` format (`_parse_utc_iso`); on that fixed format the
  `strftime`/`strptime` pair is mutually inverse at seconds precision, so
  the embedding identifies such a string with the `DT` value it denotes.
  Minute-precision display strings (`%Y-%m-%d %H:%M`) are rendered
  explicitly by `format_minutes` because they appear verbatim in reports.
* GitPython is an external collaborator: a repository is modelled by the
  data the code actually reads from it (`GitRepoState`): the newest-first
  commit sequence of the target ref, the tag listing after the
  `sorted(..., reverse=True)` call of `_tags_to_infos`, and an optional
  fetch/clone failure.  `repo.iter_commits(target, max_count=k)` yields
  the first `k` commits of that sequence, which is modelled by
  `List.take k`.
* Python exceptions are modelled with `Except`; per-value truthiness
  (`if last_seen_sha:` on an optional string, `if s.error:` …) is
  modelled by explicit emptiness tests.
-/

/-- Naive UTC datetime at seconds precision, ordered the way Python
compares `datetime` values (lexicographically by component). -/
structure DT where
  year : Nat
  month : Nat
  day : Nat
  hour : Nat
  minute : Nat
  second : Nat
deriving DecidableEq, Repr

/-- Python `datetime.min` (0001-01-01 00:00:00), the sort key used by
`_tags_to_infos` for tags whose commit has no datetime. -/
def DT.min : DT := ⟨1, 1, 1, 0, 0, 0⟩

/-- `a <= b` on Python datetimes: lexicographic on the components. -/
def DT.le (a b : DT) : Prop :=
  a.year < b.year ∨ (a.year = b.year ∧
    (a.month < b.month ∨ (a.month = b.month ∧
      (a.day < b.day ∨ (a.day = b.day ∧
        (a.hour < b.hour ∨ (a.hour = b.hour ∧
          (a.minute < b.minute ∨ (a.minute = b.minute ∧
            a.second ≤ b.second)))))))))

/-- `a < b` on Python datetimes: lexicographic on the components. -/
def DT.lt (a b : DT) : Prop :=
  a.year < b.year ∨ (a.year = b.year ∧
    (a.month < b.month ∨ (a.month = b.month ∧
      (a.day < b.day ∨ (a.day = b.day ∧
        (a.hour < b.hour ∨ (a.hour = b.hour ∧
          (a.minute < b.minute ∨ (a.minute = b.minute ∧
            a.second < b.second)))))))))

instance (a b : DT) : Decidable (DT.le a b) := by
  unfold DT.le; exact inferInstance

instance (a b : DT) : Decidable (DT.lt a b) := by
  unfold DT.lt; exact inferInstance

/-- Zero-pad a number to two digits, as `strftime` does for `%m %d %H %M %S`. -/
def pad2 (n : Nat) : String :=
  if n < 10 then "0" ++ toString n else toString n

/-- Zero-pad a number to four digits, as `strftime` does for `%Y`. -/
def pad4 (n : Nat) : String :=
  if n < 10 then "000" ++ toString n
  else if n < 100 then "00" ++ toString n
  else if n < 1000 then "0" ++ toString n
  else toString n

/-- `dt.strftime("%Y-%m-%d %H:%M")`, the display format used for commit and
tag dates in reports. -/
def format_minutes (d : DT) : String :=
  pad4 d.year ++ "-" ++ pad2 d.month ++ "-" ++ pad2 d.day ++ " " ++
    pad2 d.hour ++ ":" ++ pad2 d.minute

/-- The data `fetcher.py` reads from a GitPython `Commit`: `hexsha`,
`author.name` (possibly `None`), `committed_datetime` (possibly `None`,
already truncated to the precision the code keeps), the message, and the
`references` attribute read defensively with `getattr` (its entries are
used only through their names). -/
structure PyCommit where
  hexsha : String
  author_name : Option String
  committed_dt : Option DT
  message : String
  references : List String
deriving DecidableEq, Repr

/-- `CommitInfo` dataclass of `fetcher.py`. -/
structure CommitInfo where
  sha_short : String
  author : String
  date_iso : String
  subject : String
  refs : String
deriving DecidableEq, Repr

/-- `TagInfo` dataclass of `fetcher.py`. -/
structure TagInfo where
  name : String
  sha_short : String
  date_iso : String
  message : String
deriving DecidableEq, Repr

/-- The data `_tags_to_infos` reads from a GitPython `TagReference`: the
tag name, the pointed-at commit hexsha and datetime (in UTC, seconds
precision, possibly absent), and — for annotated tags — the tag object
message (`tag.tag.message`); `none` models a lightweight tag
(`tag.tag is None`). -/
structure Tag where
  name : String
  commit_hexsha : String
  commit_dt : Option DT
  tag_obj_message : Option String
deriving DecidableEq, Repr

/-- The sort key of `sorted(repo.tags, key=lambda t: t.commit.committed_datetime
or datetime.min, reverse=True)`: the commit datetime, defaulting to
`datetime.min`. -/
def sort_key (t : Tag) : DT := t.commit_dt.getD DT.min

/-- The tag listing is sorted by resolved commit timestamp, descending
(the state of the `tags` variable after the `sorted` call). -/
def TagsSortedDesc (ts : List Tag) : Prop :=
  List.Pairwise (fun a b => DT.le (sort_key b) (sort_key a)) ts

/-- Body of the loop of `_commits_to_infos` applied to one commit. -/
def commit_info_of (c : PyCommit) : CommitInfo :=
  { sha_short := c.hexsha.take 7
    author := c.author_name.getD ""
    date_iso := match c.committed_dt with
      | some d => format_minutes d
      | none => ""
    subject := ((c.message.splitOn "\n").headD "").trim.take 80
    refs := if c.references ≠ [] then String.intercalate " " c.references else "" }

/-- `_commits_to_infos(commits, max_n)` of `fetcher.py`: convert the first
`max_n` commits. -/
def commits_to_infos (commits : List PyCommit) (max_n : Nat) : List CommitInfo :=
  (commits.take max_n).map commit_info_of

/-- `last_seen_sha == c.hexsha or c.hexsha.startswith(last_seen_sha)`:
the stop test of `_commits_since_sha` (equality is a special case of the
`startswith` check, kept for fidelity to the source). -/
def sha_matches (sha : String) (c : PyCommit) : Bool :=
  c.hexsha = sha || c.hexsha.startsWith sha

/-- The `for` loop of `_commits_since_sha`: walk the (already truncated)
commit sequence, stop before a commit matching `sha`, stop after
collecting `max_count` commits. -/
def commits_since_loop (sha : String) (max_count : Nat) :
    List PyCommit → List PyCommit → List PyCommit
  | [], acc => acc
  | c :: rest, acc =>
    if sha_matches sha c then acc
    else
      let acc' := acc ++ [c]
      if max_count ≤ acc'.length then acc'
      else commits_since_loop sha max_count rest acc'

/-- `_commits_since_sha(repo, target, last_seen_sha, max_count)`:
`repo.iter_commits(target, max_count=max_count * 2)` yields the first
`max_count * 2` commits of the newest-first history. -/
def commits_since_sha (history : List PyCommit) (sha : String)
    (max_count : Nat) : List PyCommit :=
  commits_since_loop sha max_count (history.take (max_count * 2)) []

/-- The tag-info construction of `_tags_to_infos` (lines building the
appended `TagInfo`): short sha, minute-precision date string, first line
of the annotated-tag message truncated to 60 characters. -/
def tag_info_of (t : Tag) : TagInfo :=
  { name := t.name
    sha_short := t.commit_hexsha.take 7
    date_iso := match t.commit_dt with
      | some d => format_minutes d
      | none => ""
    message := match t.tag_obj_message with
      | some m => if m ≠ "" then ((m.splitOn "\n").headD "").trim.take 60 else ""
      | none => "" }

/-- The `for tag in tags:` loop of `_tags_to_infos`, carrying the `result`
and `newest_date_iso` accumulators.  A tag whose commit datetime is absent
is skipped (the code hits one of its two `continue` statements for `dt is
None` / `tag_date_utc_str is None`); when a cutoff is given, a tag dated
at or before it is skipped after recording `newest_date_iso` if still
unset; otherwise the tag is appended and `newest_date_iso` recorded if
still unset.  The loop stops early once `max_tags` results are collected
*and* `newest_date_iso` is set. -/
def tags_loop (cutoff : Option DT) (max_tags : Nat) :
    List Tag → List TagInfo → Option DT → List TagInfo × Option DT
  | [], result, newest => (result, newest)
  | t :: rest, result, newest =>
    if max_tags ≤ result.length ∧ newest ≠ none then (result, newest)
    else
      match t.commit_dt with
      | none => tags_loop cutoff max_tags rest result newest
      | some d =>
        match cutoff with
        | some c =>
          if DT.le d c then
            tags_loop cutoff max_tags rest result
              (if newest = none then some d else newest)
          else
            tags_loop cutoff max_tags rest (result ++ [tag_info_of t])
              (if newest = none then some d else newest)
        | none =>
          tags_loop cutoff max_tags rest (result ++ [tag_info_of t])
            (if newest = none then some d else newest)

/-- `_tags_to_infos(repo, max_tags, last_seen_newest_tag_date)` given the
sorted tag listing (the `tags` variable after the `sorted` call; a failure
of that call returns `([], None)` outside this model) and the cutoff
already parsed by `_parse_utc_iso` (`None` when absent or unparseable).
After the loop, `newest_date_iso` is overwritten with the datetime of the
newest tag overall (`tags[0]`) whenever the listing is non-empty. -/
def tags_to_infos (ts : List Tag) (max_tags : Nat) (cutoff : Option DT) :
    List TagInfo × Option DT :=
  let p := tags_loop cutoff max_tags ts [] none
  match ts with
  | [] => p
  | t :: _ => (p.1, t.commit_dt)

/-- `RepoConfig` dataclass of `config.py`. -/
structure RepoConfig where
  url : String
  branch : String
  max_commits : Nat
  include_tags : Bool
deriving DecidableEq, Repr

/-- A fetch/clone failure raised by the git layer inside
`fetch_repo_summary`: `is_git_command` distinguishes `GitCommandError`
(whose message is truncated to its first line) from other exceptions. -/
structure PyFetchExn where
  is_git_command : Bool
  msg : String
deriving DecidableEq, Repr

/-- The error string `fetch_repo_summary` stores for a failure: first line
of the message for `GitCommandError`, the whole message otherwise. -/
def fetch_error_msg (e : PyFetchExn) : String :=
  if e.is_git_command then (e.msg.splitOn "\n").headD "" else e.msg

/-- What `fetch_repo_summary` observes of one repository: the newest-first
commit history of the resolved target ref, the tag listing sorted by
commit timestamp descending, and an optional failure of the
clone/fetch/ref-resolution steps. -/
structure GitRepoState where
  history : List PyCommit
  sorted_tags : List Tag
  fetch_error : Option PyFetchExn

/-- `RepoSummary` dataclass of `fetcher.py` (`newest_tag_date` is stored
by the code as a `%Y-%m-%d %H:%M:%S` string, identified here with the
`DT` it denotes). -/
structure RepoSummary where
  url : String
  name : String
  branch : String
  commits : List CommitInfo
  tags : List TagInfo
  error : Option String
  since_last_run : Bool
  tags_since_last_run : Bool
  head_sha : Option String
  newest_tag_date : Option DT
deriving Repr

/-- `_repo_name_from_url` of `fetcher.py`. -/
def repo_name_from_url (url : String) : String :=
  let u := url.dropRightWhile (· = '/')
  let u := if u.toLower.endsWith ".git" then u.dropRight 4 else u
  let parts := ((u.replace "\\" "/").splitOn "/").filter (· ≠ "")
  match parts.reverse with
  | a :: b :: _ => b ++ "/" ++ a
  | [a] => a
  | [] => u

/-- Python truthiness of an optional string (`None` and `""` are falsy). -/
def truthy_opt_str : Option String → Bool
  | some s => s ≠ ""
  | none => false

/-- `fetch_repo_summary(config, cache_dir, last_seen_sha,
last_seen_newest_tag_date)` of `fetcher.py` over the observed repository
`st`.  Any git failure is captured in `summary.error`; otherwise the
commit part runs (incremental when `last_seen_sha` is truthy), and the
tag part runs when `config.include_tags`, with the tag cutoff applied
only on incremental runs. -/
def fetch_repo_summary (cfg : RepoConfig) (st : GitRepoState)
    (last_seen_sha : Option String) (last_seen_newest_tag_date : Option DT) :
    RepoSummary :=
  let base : RepoSummary :=
    { url := cfg.url, name := repo_name_from_url cfg.url, branch := cfg.branch
      commits := [], tags := [], error := none, since_last_run := false
      tags_since_last_run := false, head_sha := none, newest_tag_date := none }
  match st.fetch_error with
  | some e => { base with error := some (fetch_error_msg e) }
  | none =>
    let s1 :=
      if truthy_opt_str last_seen_sha then
        let sha := last_seen_sha.getD ""
        let new_commits := commits_since_sha st.history sha cfg.max_commits
        let head : Option String :=
          match new_commits with
          | c :: _ => some c.hexsha
          | [] =>
            -- no new commits: head is the current HEAD commit, or the
            -- last seen sha when the history is empty (StopIteration)
            match st.history with
            | h :: _ => some h.hexsha
            | [] => some sha
        { base with since_last_run := true, head_sha := head
                    commits := commits_to_infos new_commits cfg.max_commits }
      else
        let commits := st.history.take cfg.max_commits
        { base with head_sha := (commits.head?).map (·.hexsha)
                    commits := commits_to_infos commits cfg.max_commits }
    if cfg.include_tags then
      let tag_cutoff :=
        if truthy_opt_str last_seen_sha then last_seen_newest_tag_date else none
      let p := tags_to_infos st.sorted_tags 10 tag_cutoff
      { s1 with tags := p.1, newest_tag_date := p.2
                tags_since_last_run := tag_cutoff.isSome }
    else s1

/-! ## Tag-diffing lemmas -/

/-- A tag counts as new relative to cutoff `c` when its commit timestamp
resolves and is strictly greater than `c`. -/
def tag_is_new (c : DT) (t : Tag) : Bool :=
  match t.commit_dt with
  | some d => decide (DT.lt c d)
  | none => false

def c1x_commit : PyCommit :=
  ⟨"1111aaaa2222bbbb", some "Alice", some ⟨2026, 1, 2, 3, 4, 0⟩, "first", []⟩

def c1w_commit1 : PyCommit :=
  ⟨"bbb2222000011112222", some "Bob", some ⟨2026, 2, 3, 4, 5, 0⟩,
    "Add feature", []⟩

def c1w_commit2 : PyCommit :=
  ⟨"abc1234000011112222", some "Alice", some ⟨2026, 1, 2, 3, 4, 0⟩,
    "Initial", []⟩

def c1w_history : List PyCommit := [c1w_commit1, c1w_commit2]

def c2x_tag : Tag := ⟨"v2", "fff0000abcd", some ⟨2026, 3, 1, 0, 0, 0⟩, none⟩

def c2x_cutoff : DT := ⟨2026, 1, 1, 0, 0, 0⟩

def c2w_T0 : DT := ⟨2026, 1, 10, 0, 0, 0⟩

def c2w_T1 : DT := ⟨2026, 1, 5, 9, 0, 0⟩

def c2w_T2 : DT := ⟨2026, 2, 20, 12, 30, 0⟩

def c2w_v2 : Tag := ⟨"v2", "abcd1234efef", some c2w_T2, some "Release v2"⟩

def c2w_v1 : Tag := ⟨"v1", "1234abcd5656", some c2w_T1, none⟩

def c2w_tags : List Tag := [c2w_v2, c2w_v1]

instance (ts : List Tag) : Decidable (TagsSortedDesc ts) := by
  unfold TagsSortedDesc
  exact inferInstance

/-! ## State store (`state.py`)

The persisted state file is read with `path.read_text(encoding="utf-8")`
and decoded with Python's `json` module, both external stdlib.  A file
whose text `json.loads` accepts is modelled by the parsed JSON value it
denotes (`FileContent.jsonVal`); text it rejects, or a read failing with
`OSError`, by `FileContent.invalid`; bytes that `read_text` cannot
decode as UTF-8 — which raise `UnicodeDecodeError` already, before
`json.loads` runs — by `FileContent.undecodable`; and a missing file by
`FileContent.absent`.
`json.dumps` followed by `json.loads` is the identity on
JSON-representable values with string keys (the only shapes the program
writes), so `save_state` stores the value itself.  Python `dict`s are
modelled as association lists in insertion order. -/

/-- A JSON-representable Python value, as stored in the state file. -/
inductive PyVal where
  | str (s : String)
  | list (items : List PyVal)
  | dict (entries : List (String × PyVal))

/-- Whether a value is a Python `str`. -/
def PyVal.is_str : PyVal → Bool
  | .str _ => true
  | _ => false

/-- Whether a value is a Python `dict` (`isinstance(data, dict)`). -/
def PyVal.is_dict : PyVal → Bool
  | .dict _ => true
  | _ => false

/-- Whether a value is a `list` of `str`. -/
def PyVal.is_list_of_str : PyVal → Bool
  | .list items => items.all PyVal.is_str
  | _ => false

/-- A persisted per-repo state mapping (`repo_url -> value`). -/
abbrev StateMap := List (String × PyVal)

/-- An uncaught Python exception propagating out of the function that
raised it (`main` has no handler around state loading or the repo
loop). -/
inductive PyError where
  | typeError (msg : String)
  | attributeError (msg : String)
  | unicodeDecodeError (msg : String)
deriving DecidableEq, Repr

def utf8_decode_error_msg : String :=
  "utf-8 codec cannot decode byte in state.json"

/-- The content of `cache_dir/state.json`. -/
inductive FileContent where
  /-- No state file exists. -/
  | absent
  /-- Bytes that `read_text(encoding="utf-8")` cannot decode as UTF-8
  (e.g. a truncated multi-byte character from an interrupted write). -/
  | undecodable
  /-- Text that decodes but that `json.loads` rejects
  (`json.JSONDecodeError`), or a read failing with `OSError`. -/
  | invalid
  /-- Text that parses to the JSON value `v`. -/
  | jsonVal (v : PyVal)

/-- `load_state(cache_dir)` of `state.py`: a missing file gives `{}`;
content `json.loads` rejects, or an `OSError`, gives `{}` (the handler
at state.py:29 catches exactly `(json.JSONDecodeError, OSError)`);
parsed non-`dict` content gives `{}`.  But a state file whose bytes are
not valid UTF-8 makes `path.read_text(encoding="utf-8")` raise
`UnicodeDecodeError` — a `ValueError` subclass the handler does not
catch — so that exception propagates to the caller. -/
def load_state : FileContent → Except PyError StateMap
  | .absent => .ok []
  | .undecodable => .error (.unicodeDecodeError utf8_decode_error_msg)
  | .invalid => .ok []
  | .jsonVal v =>
    .ok (match v with
         | .dict entries => entries
         | _ => [])

/-- `save_state(cache_dir, state)` of `state.py`: write the mapping as
JSON (the `indent=2` pretty-printing does not change the parsed value). -/
def save_state (state : StateMap) : FileContent :=
  .jsonVal (.dict state)

/-- Python `dict.get` on an association list (first binding wins, as in a
`dict`, whose keys are unique). -/
def py_get (entries : List (String × PyVal)) (key : String) : Option PyVal :=
  (entries.find? (fun p => p.1 = key)).map (fun p => p.2)

/-- `get_last_seen_sha(state, repo_url)` of `state.py`: legacy string
values are returned directly, dict values through their `commit_sha`
entry.  A non-string `commit_sha` (which well-formed state never
contains) is modelled as absent. -/
def get_last_seen_sha (state : StateMap) (repo_url : String) : Option String :=
  match py_get state repo_url with
  | none => none
  | some (.str s) => some s
  | some (.dict entries) =>
    match py_get entries "commit_sha" with
    | some (.str s) => some s
    | _ => none
  | some _ => none

/-- `get_last_seen_tag_names(state, repo_url)` of `state.py`: the string
entries of the `tag_names` list, empty for legacy or missing state (the
Python `set` is modelled as the list of kept names; callers only test it
for emptiness). -/
def get_last_seen_tag_names (state : StateMap) (repo_url : String) :
    List String :=
  match py_get state repo_url with
  | some (.dict entries) =>
    match py_get entries "tag_names" with
    | some (.list items) =>
      items.filterMap (fun v => match v with | .str s => some s | _ => none)
    | _ => []
  | _ => []

/-- A structured state record: a dict whose entries are drawn from
`commit_sha` (string), `tag_names` (list of strings) and
`newest_tag_date` (string). -/
def is_structured_record : PyVal → Bool
  | .dict entries =>
    entries.all (fun p =>
      (p.1 = "commit_sha" && p.2.is_str)
      || (p.1 = "tag_names" && p.2.is_list_of_str)
      || (p.1 = "newest_tag_date" && p.2.is_str))
  | _ => false

/-- A state value in one of the two supported shapes: a legacy commit-id
string or a structured record. -/
def is_legacy_or_structured (v : PyVal) : Bool :=
  v.is_str || is_structured_record v

def c5w_state : StateMap :=
  [("https://github.com/a/b", .str "abc123"),
   ("https://gitlab.com/x/y",
     .dict [("commit_sha", .str "def456"),
            ("tag_names", .list [.str "v1.0", .str "v0.9"]),
            ("newest_tag_date", .str "2026-01-02 03:04:05")])]

/-! ## Report formatting (`summary.py`)

`datetime.now().strftime("%Y-%m-%d %H:%M")` is impure; the ambient clock
reading is passed as the `now` parameter and assumed stable across one
run.  Logging (`logger.warning` …) produces no return value and is not
modelled. -/

/-- `RepoSummary.display_name`: `self.name or self.url`. -/
def display_name (s : RepoSummary) : String :=
  if s.name ≠ "" then s.name else s.url

/-- One commit line of the report:
`    - {date}  {sha}{ [refs]}  {author}: {subject}`. -/
def commit_line (c : CommitInfo) : String :=
  "    - " ++ c.date_iso ++ "  " ++ c.sha_short
    ++ (if c.refs ≠ "" then " [" ++ c.refs ++ "]" else "")
    ++ "  " ++ c.author ++ ": " ++ c.subject

/-- One tag line of the report:
`    - {date}  {name} ({sha}){  — message}`. -/
def tag_line (t : TagInfo) : String :=
  "    - " ++ t.date_iso ++ "  " ++ t.name ++ " (" ++ t.sha_short ++ ")"
    ++ (if t.message ≠ "" then "  — " ++ t.message else "")

/-- The commit lines a summary contributes (identical in `format_report`
and `_raw_context`). -/
def commits_block (s : RepoSummary) : List String :=
  if s.commits ≠ [] then
    (if s.since_last_run then "  New commits since last run:"
     else "  Recent commits:") :: s.commits.map commit_line
  else if s.since_last_run then ["  No new commits since last run."]
  else []

/-- The tag lines a summary contributes (identical in `format_report` and
`_raw_context`); only the first 5 tags are rendered (`s.tags[:5]`). -/
def tags_block (s : RepoSummary) : List String :=
  if s.tags_since_last_run then
    if s.tags ≠ [] then
      "  New tags/releases since last run:" :: (s.tags.take 5).map tag_line
    else ["  No new tags since last run."]
  else if s.tags ≠ [] then
    "  Recent tags/releases:" :: (s.tags.take 5).map tag_line
  else []

/-- The lines one summary contributes to `format_report`: header, URL and
branch, then either the error line or the commit and tag blocks, then a
blank line. -/
def repo_section (s : RepoSummary) : List String :=
  ["## " ++ display_name s, "  URL: " ++ s.url, "  Branch: " ++ s.branch]
    ++ (if truthy_opt_str s.error then ["  Error: " ++ s.error.getD "", ""]
        else commits_block s ++ tags_block s ++ [""])

/-- The title block of a report: the title and an `=` underline capped at
60 characters, when the title is truthy. -/
def title_lines (title : Option String) : List String :=
  match title with
  | some t =>
    if t ≠ "" then [t, String.mk (List.replicate (Nat.min 60 t.length) '='), ""]
    else []
  | none => []

/-- `format_report(summaries, title)` of `summary.py` at clock reading
`now`. -/
def format_report (summaries : List RepoSummary) (title : Option String)
    (now : String) : String :=
  String.intercalate "\n"
    (title_lines title ++ ["Generated: " ++ now, ""]
      ++ summaries.flatMap repo_section)

/-- The lines one summary contributes to `_raw_context`: header with URL,
branch, then either the error line or the commit and tag blocks, then a
blank line. -/
def raw_context_section (s : RepoSummary) : List String :=
  ["## " ++ display_name s ++ " (" ++ s.url ++ ")", "  Branch: " ++ s.branch]
    ++ (if truthy_opt_str s.error then ["  Error: " ++ s.error.getD "", ""]
        else commits_block s ++ tags_block s ++ [""])

/-- `_raw_context(summaries)` of `summary.py`. -/
def raw_context (summaries : List RepoSummary) : String :=
  String.intercalate "\n" (summaries.flatMap raw_context_section)

/-- A Python exception raised by the `generate` call: its message and,
when it carries an HTTP response, that response's status code (used only
to decide whether a model-not-found hint is logged). -/
structure PyExn where
  msg : String
  response_status : Option Nat

/-- The outcome of the `ollama_client.generate` HTTP call: the stripped
response text, or a raised exception (connection error, timeout,
`raise_for_status` failure, …). -/
inductive OllamaOutcome where
  | ok (text : String)
  | exn (e : PyExn)

/-- `format_report_with_ai(summaries, title, …)` of `summary.py` at clock
reading `now`, with the service call abstracted by `outcome`.  An empty
raw context short-circuits to the plain report before any service call;
an exception falls back to the plain report (the `status_code == 404`
path only adds a hint to a log message, and `list_models` returns `[]`
instead of raising on any error); empty response text also falls back. -/
def format_report_with_ai (summaries : List RepoSummary)
    (title : Option String) (now : String) (outcome : OllamaOutcome) :
    String :=
  let context := raw_context summaries
  if context.trim = "" then format_report summaries title now
  else
    match outcome with
    | .exn _ => format_report summaries title now
    | .ok ai_text =>
      if ai_text = "" then format_report summaries title now
      else
        String.intercalate "\n"
          (title_lines title ++ ["Generated: " ++ now, "", ai_text.trim, ""])

def c10_six : RepoSummary :=
  { url := "https://example.com/o/six.git", name := "o/six", branch := "main"
    commits := []
    tags := [⟨"v6", "a6a6a6a", "2026-06-01 00:00", ""⟩,
             ⟨"v5", "a5a5a5a", "2026-05-01 00:00", ""⟩,
             ⟨"v4", "a4a4a4a", "2026-04-01 00:00", ""⟩,
             ⟨"v3", "a3a3a3a", "2026-03-01 00:00", ""⟩,
             ⟨"v2", "a2a2a2a", "2026-02-01 00:00", ""⟩,
             ⟨"v1", "a1a1a1a", "2026-01-01 00:00", ""⟩]
    error := none, since_last_run := false, tags_since_last_run := false
    head_sha := none, newest_tag_date := none }

/-! ## CLI orchestrator (`cli.py` main loop)

`cli.py` calls `fetch_repo_summary(repo_config, config.cache_dir,
last_seen_sha=last_sha, last_seen_tag_names=last_tag_names or None)`
(lines 165–170), but `fetch_repo_summary` (fetcher.py lines 230–235)
declares the parameters `config, cache_dir, last_seen_sha,
last_seen_newest_tag_date` and no `**kwargs`, so Python raises
`TypeError` while binding the call's arguments — before any fetching
runs.  The state-update block (lines 172–179) additionally reads
`summary.recent_tag_names`, an attribute the `RepoSummary` dataclass
does not define, which would raise `AttributeError`.  Keyword binding
and attribute lookup are embedded by comparing the call's keyword names
against the parameter list taken from the source signature, and the
accessed attribute name against the dataclass's field list. -/

/-- The parameter names of `fetch_repo_summary` (fetcher.py 230–235). -/
def fetch_repo_summary_params : List String :=
  ["config", "cache_dir", "last_seen_sha", "last_seen_newest_tag_date"]

/-- The keyword names `cli.py` passes at its `fetch_repo_summary` call
site (cli.py 165–170). -/
def cli_fetch_call_keywords : List String :=
  ["last_seen_sha", "last_seen_tag_names"]

/-- The field names of the `RepoSummary` dataclass (fetcher.py 42–55). -/
def repo_summary_fields : List String :=
  ["url", "name", "branch", "commits", "tags", "error", "since_last_run",
   "tags_since_last_run", "head_sha", "newest_tag_date"]

/-- The keys `cli.py` writes into a per-repo state entry (cli.py
173–177): `commit_sha` and `tag_names`. -/
def cli_entry_keys : List String := ["commit_sha", "tag_names"]

def kw_type_error_msg : String :=
  "fetch_repo_summary got an unexpected keyword argument last_seen_tag_names"

def recent_tag_names_attr_error_msg : String :=
  "RepoSummary object has no attribute recent_tag_names"

/-- The `fetch_repo_summary(...)` call as written in `cli.py`: Python
binds the supplied keywords against the function's parameters and raises
`TypeError` when one is not accepted.  (In the accepting branch —
unreachable for this call site — `last_seen_newest_tag_date` would keep
its default `None`, since the call never supplies it.) -/
def cli_fetch_call (cfg : RepoConfig) (st : GitRepoState)
    (last_sha : Option String) (_last_tag_names : Option (List String)) :
    Except PyError RepoSummary :=
  if cli_fetch_call_keywords.all
      (fun k => decide (k ∈ fetch_repo_summary_params)) then
    .ok (fetch_repo_summary cfg st last_sha none)
  else .error (.typeError kw_type_error_msg)

/-- Python `state[url] = entry` on the mapping. -/
def set_state_entry (st : StateMap) (url : String) (v : PyVal) : StateMap :=
  if st.any (fun p => p.1 = url) then
    st.map (fun p => if p.1 = url then (url, v) else p)
  else st ++ [(url, v)]

/-- The per-repo state-update block of `cli.py` main (lines 172–179):
skipped unless `args.changes_only and not summary.error`; otherwise it
builds `entry` from `summary.head_sha` and then reads
`summary.recent_tag_names`, an attribute `RepoSummary` does not define,
raising `AttributeError` (the store in the accepting branch — dead code
here — keeps only the `commit_sha` part the block built before the
failing lookup). -/
def state_entry_update (changes_only : Bool) (summary : RepoSummary)
    (st : StateMap) (url : String) : Except PyError StateMap :=
  if changes_only ∧ ¬ truthy_opt_str summary.error then
    let entry1 : List (String × PyVal) :=
      match summary.head_sha with
      | some s => if s ≠ "" then [("commit_sha", PyVal.str s)] else []
      | none => []
    if "recent_tag_names" ∈ repo_summary_fields then
      .ok (match entry1 with
           | [] => st
           | _ => set_state_entry st url (.dict entry1))
    else .error (.attributeError recent_tag_names_attr_error_msg)
  else .ok st

/-- The `for repo_config in config.repos:` loop of `cli.py` main (lines
158–179): look up last-seen state when `--changes-only`, call
`fetch_repo_summary` as written in the source, collect the summary, run
the state-update block.  The loop body has no exception handler, so any
raised error propagates out of `main`. -/
def cli_loop (changes_only : Bool) (env : String → GitRepoState) :
    List RepoConfig → List RepoSummary → StateMap →
    Except PyError (List RepoSummary × StateMap)
  | [], summaries, st => .ok (summaries, st)
  | rc :: rest, summaries, st =>
    let last_sha := if changes_only then get_last_seen_sha st rc.url else none
    let last_tag_names :=
      if changes_only then some (get_last_seen_tag_names st rc.url) else none
    -- `last_tag_names or None`: an empty set is falsy
    let last_tag_names_arg : Option (List String) :=
      match last_tag_names with
      | some [] => none
      | x => x
    match cli_fetch_call rc (env rc.url) last_sha last_tag_names_arg with
    | .error e => .error e
    | .ok summary =>
      match state_entry_update changes_only summary st rc.url with
      | .error e => .error e
      | .ok st' => cli_loop changes_only env rest (summaries ++ [summary]) st'

/-- `main` of `cli.py` after configuration loading (lines 155–201): load
prior state when `--changes-only` (an undecodable state file already
raises here), run the per-repo loop, save state when `--changes-only`,
format the report (AI path or deterministic), return exit code 0.  A
raised exception propagates (the interpreter then exits non-zero). -/
def cli_main_run (repos : List RepoConfig) (env : String → GitRepoState)
    (changes_only ai_summary : Bool) (state_file : FileContent)
    (title : String) (now : String) (outcome : OllamaOutcome) :
    Except PyError (Int × FileContent × String) :=
  match (if changes_only then load_state state_file else .ok []) with
  | .error e => .error e
  | .ok state0 =>
    match cli_loop changes_only env repos [] state0 with
    | .error e => .error e
    | .ok (summaries, st') =>
      let file' := if changes_only then save_state st' else state_file
      let report :=
        if ai_summary then
          format_report_with_ai summaries (some title) now outcome
        else format_report summaries (some title) now
      .ok (0, file', report)

/-! ### C3, C4, C7, C8 -/

def c3_commit : PyCommit :=
  ⟨"c3c3c3c3aaaa0000", some "Alice", some ⟨2026, 5, 1, 10, 0, 0⟩, "tweak", []⟩

def c3_repo : RepoConfig :=
  ⟨"https://github.com/varunyn/git-digest", "HEAD", 10, true⟩

def c3_env : String → GitRepoState := fun _ => ⟨[c3_commit], [], none⟩

def c3_state_file : FileContent :=
  .jsonVal (.dict [("https://github.com/varunyn/git-digest", .str "00ddbeef")])

def c4_tag : Tag := ⟨"v1.0", "c4c4c4c4c4c4", some ⟨2026, 4, 1, 0, 0, 0⟩, none⟩

def c4_repo : RepoConfig := ⟨"https://github.com/o/tags.git", "main", 10, true⟩

def c4_env : String → GitRepoState := fun _ => ⟨[], [c4_tag], none⟩

def c7_commit : PyCommit :=
  ⟨"c7c7c7c7bbbb0000", some "Bob", some ⟨2026, 6, 1, 0, 0, 0⟩, "ok", []⟩

def c7_fail_repo : RepoConfig :=
  ⟨"https://github.com/o/broken.git", "HEAD", 10, true⟩

def c7_ok_repo : RepoConfig :=
  ⟨"https://github.com/o/fine.git", "HEAD", 10, true⟩

def c7_env : String → GitRepoState := fun url =>
  if url = "https://github.com/o/broken.git" then
    ⟨[], [], some ⟨true, "Cmd git clone failed\nstderr details"⟩⟩
  else ⟨[c7_commit], [], none⟩

def c8_repo : RepoConfig := ⟨"https://github.com/o/r8.git", "HEAD", 10, false⟩

def c8_env : String → GitRepoState := fun _ => ⟨[], [], none⟩

/-! ## Theorems -/

theorem DT.le_refl (a : DT) : DT.le a a := by
  unfold DT.le; omega

theorem DT.not_le {a b : DT} : ¬ DT.le a b ↔ DT.lt b a := by
  unfold DT.le DT.lt; omega

theorem DT.le_trans {a b c : DT} (h1 : DT.le a b) (h2 : DT.le b c) :
    DT.le a c := by
  unfold DT.le at h1 h2 ⊢; omega

/-! ## Commit-diffing lemmas -/

theorem take_takeWhile_take {α : Type} (p : α → Bool) :
    ∀ (l : List α) (n m : Nat), n ≤ m →
      ((l.take m).takeWhile p).take n = (l.takeWhile p).take n := by
  intro l
  induction l with
  | nil => simp
  | cons a tl ih =>
    intro n m hnm
    cases m with
    | zero =>
      have hn : n = 0 := by omega
      simp [hn]
    | succ m =>
      rw [List.take_succ_cons]
      by_cases hp : p a
      · rw [List.takeWhile_cons_of_pos hp, List.takeWhile_cons_of_pos hp]
        cases n with
        | zero => simp
        | succ n =>
          rw [List.take_succ_cons, List.take_succ_cons, ih n m (by omega)]
      · rw [List.takeWhile_cons_of_neg hp, List.takeWhile_cons_of_neg hp]

theorem commits_since_loop_spec (sha : String) (N : Nat) :
    ∀ (l acc : List PyCommit), acc.length < N →
      commits_since_loop sha N l acc
        = acc ++ ((l.takeWhile (fun c => ! sha_matches sha c)).take (N - acc.length)) := by
  intro l
  induction l with
  | nil => intro acc _; simp [commits_since_loop]
  | cons c rest ih =>
    intro acc hacc
    by_cases hm : sha_matches sha c
    · simp [commits_since_loop, hm]
    · have hp : (fun c => ! sha_matches sha c) c = true := by simp [hm]
      rw [@List.takeWhile_cons_of_pos _ (fun c => ! sha_matches sha c) c rest hp]
      obtain ⟨k, hk⟩ : ∃ k, N - acc.length = k + 1 := ⟨N - acc.length - 1, by omega⟩
      rw [hk, List.take_succ_cons]
      simp only [commits_since_loop, hm, if_false, Bool.false_eq_true]
      by_cases hstop : N ≤ (acc ++ [c]).length
      · have hlen : (acc ++ [c]).length = N := by simp at hstop ⊢; omega
        have hk0 : k = 0 := by simp at hlen; omega
        rw [if_pos hstop]
        subst hk0
        simp
      · rw [if_neg hstop, ih (acc ++ [c]) (by simp at hstop ⊢; omega)]
        have hk' : N - (acc ++ [c]).length = k := by simp; omega
        rw [hk']
        simp

/-- `_commits_since_sha` collects, newest first, the commits strictly
before the first one matching `sha`, capped at `max_count`. -/
theorem commits_since_sha_eq (history : List PyCommit) (sha : String) (N : Nat) :
    commits_since_sha history sha N
      = (history.takeWhile (fun c => ! sha_matches sha c)).take N := by
  cases N with
  | zero => simp [commits_since_sha, commits_since_loop]
  | succ n =>
    unfold commits_since_sha
    rw [commits_since_loop_spec sha (n + 1) _ [] (by simp)]
    simp only [List.nil_append, List.length_nil, Nat.sub_zero]
    exact take_takeWhile_take _ history (n + 1) ((n + 1) * 2) (by omega)

theorem tags_loop_break (cutoff : Option DT) (N : Nat) (ts : List Tag)
    (res : List TagInfo) (newest : Option DT)
    (h1 : N ≤ res.length) (h2 : newest ≠ none) :
    tags_loop cutoff N ts res newest = (res, newest) := by
  cases ts with
  | nil => rfl
  | cons t rest => simp [tags_loop, h1, h2]

theorem tags_loop_spec (c : DT) (N : Nat) :
    ∀ (ts : List Tag) (res : List TagInfo) (newest : Option DT),
      res.length < N →
      (tags_loop (some c) N ts res newest).1
        = res ++ (((ts.filter (tag_is_new c)).take (N - res.length)).map tag_info_of) := by
  intro ts
  induction ts with
  | nil => intro res newest _; simp [tags_loop]
  | cons t rest ih =>
    intro res newest hres
    have hbrk : ¬ (N ≤ res.length ∧ newest ≠ none) := by
      intro h; omega
    cases hdt : t.commit_dt with
    | none =>
      have hnew : tag_is_new c t = false := by simp [tag_is_new, hdt]
      simp only [tags_loop, hdt, if_neg hbrk]
      rw [List.filter_cons_of_neg (by simp [hnew])]
      exact ih res newest hres
    | some d =>
      by_cases hle : DT.le d c
      · have hnew : tag_is_new c t = false := by
          simp only [tag_is_new, hdt, decide_eq_false_iff_not]
          rw [← DT.not_le]
          intro h; exact h hle
        simp only [tags_loop, hdt, if_neg hbrk, if_pos hle]
        rw [List.filter_cons_of_neg (by simp [hnew])]
        exact ih res _ hres
      · have hnew : tag_is_new c t = true := by
          simp only [tag_is_new, hdt, decide_eq_true_eq]
          exact DT.not_le.mp hle
        simp only [tags_loop, hdt, if_neg hbrk, if_neg hle]
        rw [List.filter_cons_of_pos (by simp [hnew])]
        obtain ⟨k, hk⟩ : ∃ k, N - res.length = k + 1 := ⟨N - res.length - 1, by omega⟩
        rw [hk, List.take_succ_cons]
        have hne : (if newest = none then some d else newest) ≠ none := by
          cases newest <;> simp
        by_cases hstop : N ≤ res.length + 1
        · have hk0 : k = 0 := by omega
          rw [tags_loop_break (some c) N rest _ _ (by simp; omega) hne]
          subst hk0
          simp
        · rw [ih (res ++ [tag_info_of t]) _ (by simp; omega)]
          have hk' : N - (res ++ [tag_info_of t]).length = k := by simp; omega
          rw [hk']
          simp

theorem tags_loop_length (cutoff : Option DT) (N : Nat) (hN : 1 ≤ N) :
    ∀ (ts : List Tag) (res : List TagInfo) (newest : Option DT),
      res.length ≤ N → (res.length = 0 ∨ newest ≠ none) →
      ((tags_loop cutoff N ts res newest).1).length ≤ N := by
  intro ts
  induction ts with
  | nil => intro res newest hres _; simpa [tags_loop] using hres
  | cons t rest ih =>
    intro res newest hres hinv
    by_cases hbrk : N ≤ res.length ∧ newest ≠ none
    · rw [show tags_loop cutoff N (t :: rest) res newest = (res, newest) by
        simp [tags_loop, hbrk.1, hbrk.2]]
      exact hres
    · have hlt : res.length < N := by
        rcases hinv with h0 | hne
        · omega
        · by_cases h : N ≤ res.length
          · exact absurd ⟨h, hne⟩ hbrk
          · omega
      have hne' : ∀ d : DT, (if newest = none then some d else newest) ≠ none := by
        intro d; cases newest <;> simp
      have hinv' : ∀ d : DT,
          (res.length = 0 ∨ (if newest = none then some d else newest) ≠ none) :=
        fun d => Or.inr (hne' d)
      cases hdt : t.commit_dt with
      | none =>
        simp only [tags_loop, hdt, if_neg hbrk]
        exact ih res newest hres hinv
      | some d =>
        cases cutoff with
        | some c =>
          by_cases hle : DT.le d c
          · simp only [tags_loop, hdt, if_neg hbrk, if_pos hle]
            exact ih res _ hres (hinv' d)
          · simp only [tags_loop, hdt, if_neg hbrk, if_neg hle]
            exact ih (res ++ [tag_info_of t]) _ (by simp; omega) (Or.inr (hne' d))
        | none =>
          simp only [tags_loop, hdt, if_neg hbrk]
          exact ih (res ++ [tag_info_of t]) _ (by simp; omega) (Or.inr (hne' d))

/-! ## C1: commit diffing contract -/

/-- C1 (amended with N ≥ 1): with no previous commit id the summary holds
exactly the first N commits of the newest-first history and reports the
newest commit id as the new last-seen id (reporting none — leaving the
stored id unchanged — when the history is empty); with a previous id it
collects commits from the front until the first commit whose id equals or
starts with the previous id (excluded), or N commits are collected, or
the sequence is exhausted, and the scan reads only the first 2×N commits
of the underlying history. -/
theorem commit_diffing_contract
    (u b : String) (it : Bool) (stags : List Tag)
    (history h2 : List PyCommit) (N : Nat) (sha : String)
    (hN : 0 < N) (hsha : sha ≠ "")
    (hagree : h2.take (N * 2) = history.take (N * 2)) :
    (fetch_repo_summary ⟨u, b, N, it⟩ ⟨history, stags, none⟩ none none).commits
        = (history.take N).map commit_info_of
    ∧ (fetch_repo_summary ⟨u, b, N, it⟩ ⟨history, stags, none⟩ none none).head_sha
        = history.head?.map (fun cm => cm.hexsha)
    ∧ (fetch_repo_summary ⟨u, b, N, it⟩ ⟨history, stags, none⟩ (some sha) none).commits
        = ((history.takeWhile (fun cm => ! sha_matches sha cm)).take N).map
            commit_info_of
    ∧ commits_since_sha h2 sha N = commits_since_sha history sha N := by
  refine ⟨?_, ?_, ?_, ?_⟩
  · simp only [fetch_repo_summary, truthy_opt_str, commits_to_infos]
    split
    · simp [List.take_take]
    · simp [List.take_take]
  · simp only [fetch_repo_summary, truthy_opt_str, commits_to_infos]
    split
    · simp [List.head?_take, Nat.pos_iff_ne_zero.mp hN]
    · simp [List.head?_take, Nat.pos_iff_ne_zero.mp hN]
  · simp only [fetch_repo_summary, truthy_opt_str, commits_to_infos, hsha,
      commits_since_sha_eq]
    split
    · simp [hsha, List.take_take]
    · simp [hsha, List.take_take]
  · unfold commits_since_sha
    rw [hagree]

/-- C1 counterexample: with max_commits = 0 and a non-empty history, the
non-incremental branch leaves `head_sha` unset (`iter_commits` with
`max_count=0` yields nothing, so `commits` is empty and the
`if commits:` guard never runs), so the reported new last-seen id is not
the newest commit's id even though the repository has a commit. -/
theorem commit_head_missing_at_zero_max :
    (fetch_repo_summary ⟨"https://example.com/o/r.git", "main", 0, false⟩
        ⟨[c1x_commit], [], none⟩ none none).head_sha = none
    ∧ [c1x_commit].head?.map (fun cm => cm.hexsha) = some "1111aaaa2222bbbb"
    ∧ (none : Option String) ≠ some "1111aaaa2222bbbb" := by
  refine ⟨rfl, rfl, ?_⟩
  intro h
  exact Option.noConfusion h

/-- Witness for C1 at the spec's worked example: previous id `abc1234`,
history `[bbb2222…, abc1234…]`, `max_commits = 10`. -/
theorem commit_diffing_contract_witness :
    (0 < 10) ∧ ("abc1234" ≠ "")
    ∧ (c1w_history.take (10 * 2) = c1w_history.take (10 * 2))
    ∧ ((fetch_repo_summary ⟨"https://github.com/a/b", "main", 10, true⟩
          ⟨c1w_history, [], none⟩ none none).commits
        = (c1w_history.take 10).map commit_info_of
      ∧ (fetch_repo_summary ⟨"https://github.com/a/b", "main", 10, true⟩
          ⟨c1w_history, [], none⟩ none none).head_sha
        = c1w_history.head?.map (fun cm => cm.hexsha)
      ∧ (fetch_repo_summary ⟨"https://github.com/a/b", "main", 10, true⟩
          ⟨c1w_history, [], none⟩ (some "abc1234") none).commits
        = ((c1w_history.takeWhile (fun cm => ! sha_matches "abc1234" cm)).take 10).map
            commit_info_of
      ∧ commits_since_sha c1w_history "abc1234" 10
        = commits_since_sha c1w_history "abc1234" 10) :=
  ⟨by decide, by decide, rfl,
    commit_diffing_contract "https://github.com/a/b" "main" true []
      c1w_history c1w_history 10 "abc1234" (by decide) (by decide) rfl⟩

/-! ## C2: tag diffing with a cutoff -/

/-- C2 (amended with N ≥ 1): on a tag listing sorted by resolved commit
timestamp descending, with a cutoff, the detector returns exactly the
tags whose resolved timestamp is strictly greater than the cutoff, up to
N of them (stopping once N are collected or the list ends); tags without
a resolvable timestamp are skipped and never fail; and the reported new
cutoff is the resolved timestamp of the newest tag overall (the head of
the sorted listing, which dominates every tag). -/
theorem tag_diffing_with_cutoff
    (ts : List Tag) (N : Nat) (c : DT)
    (hN : 1 ≤ N) (hsorted : TagsSortedDesc ts) :
    (tags_to_infos ts N (some c)).1
        = ((ts.filter (tag_is_new c)).take N).map tag_info_of
    ∧ (tags_to_infos ts N (some c)).2 = ts.head?.bind (fun t => t.commit_dt)
    ∧ (∀ t ∈ ts, ∀ h ∈ ts.head?, DT.le (sort_key t) (sort_key h)) := by
  refine ⟨?_, ?_, ?_⟩
  · have h1 : (tags_to_infos ts N (some c)).1
        = (tags_loop (some c) N ts [] none).1 := by
      cases ts <;> rfl
    rw [h1, tags_loop_spec c N ts [] none (by simpa using hN)]
    simp
  · cases ts with
    | nil => rfl
    | cons t rest => rfl
  · cases ts with
    | nil => intro t ht; exact absurd ht (List.not_mem_nil t)
    | cons h0 rest =>
      intro t ht h hh
      simp only [List.head?_cons, Option.mem_def, Option.some.injEq] at hh
      subst hh
      rcases List.mem_cons.mp ht with rfl | hmem
      · exact DT.le_refl (sort_key t)
      · exact (List.pairwise_cons.mp hsorted).1 t hmem

/-- C2 counterexample: with max_tags = 0 and one tag newer than the
cutoff, the loop still appends that tag (the early-stop test
`len(result) >= max_tags and newest_date_iso is not None` fails while
`newest_date_iso` is still unset), so more than N tags are returned. -/
theorem tag_limit_violated_at_zero_max :
    ((tags_to_infos [c2x_tag] 0 (some c2x_cutoff)).1).length = 1
    ∧ ¬ ((tags_to_infos [c2x_tag] 0 (some c2x_cutoff)).1).length ≤ 0 := by
  exact ⟨rfl, by decide⟩

/-- Witness for C2 at the spec's worked example: cutoff T0, tags
[(v2, T2 > T0), (v1, T1 < T0)], N = 10 — new tags = [v2], new cutoff =
T2. -/
theorem tag_diffing_with_cutoff_witness :
    (1 ≤ 10) ∧ TagsSortedDesc c2w_tags
    ∧ ((tags_to_infos c2w_tags 10 (some c2w_T0)).1
          = ((c2w_tags.filter (tag_is_new c2w_T0)).take 10).map tag_info_of
      ∧ (tags_to_infos c2w_tags 10 (some c2w_T0)).2
          = c2w_tags.head?.bind (fun t => t.commit_dt)
      ∧ (∀ t ∈ c2w_tags, ∀ h ∈ c2w_tags.head?,
          DT.le (sort_key t) (sort_key h)))
    ∧ ((tags_to_infos c2w_tags 10 (some c2w_T0)).1).map (fun i => i.name) = ["v2"]
    ∧ (tags_to_infos c2w_tags 10 (some c2w_T0)).2 = some c2w_T2 :=
  ⟨by decide, by decide,
    tag_diffing_with_cutoff c2w_tags 10 c2w_T0 (by decide) (by decide),
    by decide, by decide⟩

/-! ### C5, C6 -/

/-- C5: saving a state mapping whose values are legacy commit-id strings
or structured records and loading it back from the same cache directory
returns a mapping equal to the original. -/
theorem state_round_trip (state : StateMap)
    (hkeys : (state.map Prod.fst).Nodup)
    (hvals : ∀ p ∈ state, is_legacy_or_structured p.2 = true) :
    load_state (save_state state) = .ok state := rfl

/-- Witness for C5 on a mapping holding one legacy value and one
structured record. -/
theorem state_round_trip_witness :
    (c5w_state.map Prod.fst).Nodup
    ∧ (∀ p ∈ c5w_state, is_legacy_or_structured p.2 = true)
    ∧ load_state (save_state c5w_state) = .ok c5w_state :=
  ⟨by decide, by decide,
    state_round_trip c5w_state (by decide) (by decide)⟩

/-- C6 (code bug): `load_state` does return the empty mapping for a
missing file, for content `json.loads` rejects (and for `OSError`), and
for parsed content that is not a mapping — but it is not
exception-free: on a state file whose bytes are not valid UTF-8,
`path.read_text(encoding="utf-8")` raises `UnicodeDecodeError`, which
the `except (json.JSONDecodeError, OSError)` clause does not catch, so
loading raises instead of returning a mapping. -/
theorem load_state_raises_on_undecodable :
    load_state .absent = .ok []
    ∧ load_state .invalid = .ok []
    ∧ (∀ s : String, load_state (.jsonVal (.str s)) = .ok [])
    ∧ (∀ items : List PyVal, load_state (.jsonVal (.list items)) = .ok [])
    ∧ load_state .undecodable
        = .error (.unicodeDecodeError utf8_decode_error_msg)
    ∧ (∀ st : StateMap, load_state .undecodable ≠ .ok st) := by
  refine ⟨rfl, rfl, fun _ => rfl, fun _ => rfl, rfl, ?_⟩
  intro st h
  rw [show load_state .undecodable
      = Except.error (PyError.unicodeDecodeError utf8_decode_error_msg)
    from rfl] at h
  exact Except.noConfusion h

/-! ### C9, C10 -/

/-- C9: whenever the summarization call fails (any raised exception:
unreachable, timeout, non-success status) or returns empty text, the AI
formatter returns byte-for-byte the deterministic report for the same
summaries and title, and never propagates the failure (it is a total
function of the outcome). -/
theorem ai_fallback_exact :
    (∀ (summaries : List RepoSummary) (title : Option String) (now : String)
        (e : PyExn),
      format_report_with_ai summaries title now (.exn e)
        = format_report summaries title now)
    ∧ (∀ (summaries : List RepoSummary) (title : Option String)
        (now : String),
      format_report_with_ai summaries title now (.ok "")
        = format_report summaries title now) := by
  constructor
  · intro summaries title now e
    unfold format_report_with_ai
    by_cases h : (raw_context summaries).trim = "" <;> simp [h]
  · intro summaries title now
    unfold format_report_with_ai
    by_cases h : (raw_context summaries).trim = "" <;> simp [h]

theorem tags_to_infos_length_le (ts : List Tag) (N : Nat) (cutoff : Option DT)
    (hN : 1 ≤ N) : ((tags_to_infos ts N cutoff).1).length ≤ N := by
  have h1 : (tags_to_infos ts N cutoff).1 = (tags_loop cutoff N ts [] none).1 := by
    cases ts <;> rfl
  rw [h1]
  exact tags_loop_length cutoff N hN ts [] none (by simp) (Or.inl rfl)

theorem tags_block_take5 (s : RepoSummary) :
    tags_block { s with tags := s.tags.take 5 } = tags_block s := by
  unfold tags_block
  by_cases ht : s.tags = []
  · simp [ht]
  · have hne : s.tags.take 5 ≠ [] := by
      simp [List.take_eq_nil_iff, ht]
    simp [ht, hne, List.take_take]

theorem repo_section_take5 (s : RepoSummary) :
    repo_section { s with tags := s.tags.take 5 } = repo_section s := by
  unfold repo_section
  rw [show commits_block { s with tags := s.tags.take 5 } = commits_block s
      from rfl]
  rw [tags_block_take5 s]
  rfl

/-- C10: the rendered report shows at most 5 tag lines per repository —
truncating every summary's tags to its first 5 leaves the whole report
unchanged, so tags beyond the first 5 are silently omitted, and a repo
section carries at most 5 tag lines after its block header — while
fetching collects up to 10 tags on the summary (`max_tags=10`); a
summary with 6 tags concretely renders exactly 5 tag lines. -/
theorem tag_lines_bounded :
    (∀ (summaries : List RepoSummary) (title : Option String) (now : String),
      format_report (summaries.map (fun s => { s with tags := s.tags.take 5 }))
          title now
        = format_report summaries title now)
    ∧ (∀ s : RepoSummary, ((tags_block s).drop 1).length ≤ 5)
    ∧ (∀ (cfg : RepoConfig) (st : GitRepoState) (last_sha : Option String)
        (last_dt : Option DT),
      ((fetch_repo_summary cfg st last_sha last_dt).tags).length ≤ 10)
    ∧ (c10_six.tags.length = 6 ∧ ((tags_block c10_six).drop 1).length = 5) := by
  refine ⟨?_, ?_, ?_, by decide, by decide⟩
  · intro summaries title now
    unfold format_report
    have hmap : (summaries.map (fun s => { s with tags := s.tags.take 5 })).flatMap
        repo_section = summaries.flatMap repo_section := by
      induction summaries with
      | nil => rfl
      | cons s rest ih => simp only [List.map_cons, List.flatMap_cons, ih,
          repo_section_take5]
    rw [hmap]
  · intro s
    unfold tags_block
    by_cases h1 : s.tags_since_last_run <;> by_cases h2 : s.tags = [] <;>
      simp [h1, h2, List.length_take]
  · intro cfg st last_sha last_dt
    unfold fetch_repo_summary
    cases hfe : st.fetch_error with
    | some e => simp
    | none =>
      by_cases hit : cfg.include_tags
      · simp only [hit, if_true]
        exact tags_to_infos_length_le _ 10 _ (by omega)
      · by_cases hts : truthy_opt_str last_sha <;> simp [hit, hts]

/-- C3 (code bug): an incremental (`--changes-only`) run never reaches
the state-update block — the `fetch_repo_summary` call at cli.py 165–170
passes the keyword `last_seen_tag_names`, which the function's signature
does not accept, so `TypeError` is raised for the very first repository
and no last-seen commit id is ever stored or advanced. -/
theorem incremental_state_update_never_runs :
    cli_main_run [c3_repo] c3_env true false c3_state_file
        "Git updates summary" "2026-05-02 08:00" (.ok "")
      = .error (.typeError kw_type_error_msg) := rfl

/-- C4 (code bug): no tag-cutoff timestamp is ever persisted — the keys
the CLI's update block writes are `commit_sha` and `tag_names` only
(never `newest_tag_date`), the block reads the nonexistent attribute
`recent_tag_names`, and in any case every incremental run dies with
`TypeError` at the fetch call before reaching the block. -/
theorem tag_cutoff_never_persisted :
    ("newest_tag_date" ∉ cli_entry_keys)
    ∧ ("recent_tag_names" ∉ repo_summary_fields)
    ∧ cli_main_run [c4_repo] c4_env true false .absent "Tags"
          "2026-04-02 00:00" (.ok "")
        = .error (.typeError kw_type_error_msg) :=
  ⟨by decide, by decide, rfl⟩

/-- C7 (code bug): `fetch_repo_summary` itself does capture any git
failure as an error string on that repository's summary alone, leaving
`head_sha` unset (first conjunct, for every input); but the claimed
batch behaviour never happens — the CLI loop raises `TypeError` at the
first repository's fetch call, so the run dies before any other
repository's summary exists or any state is saved. -/
theorem per_repo_error_capture_and_batch_crash :
    (∀ (cfg : RepoConfig) (history : List PyCommit) (stags : List Tag)
        (e : PyFetchExn) (lsha : Option String) (ldt : Option DT),
      (fetch_repo_summary cfg ⟨history, stags, some e⟩ lsha ldt).error
          = some (fetch_error_msg e)
      ∧ (fetch_repo_summary cfg ⟨history, stags, some e⟩ lsha ldt).head_sha
          = none
      ∧ (fetch_repo_summary cfg ⟨history, stags, some e⟩ lsha ldt).commits = [])
    ∧ cli_main_run [c7_fail_repo, c7_ok_repo] c7_env true false .absent
          "Batch" "2026-06-02 00:00" (.ok "")
        = .error (.typeError kw_type_error_msg) :=
  ⟨fun _ _ _ _ _ _ => ⟨rfl, rfl, rfl⟩, rfl⟩

/-- C8 (code bug): with at least one configured repository the CLI never
completes with exit status 0 — even without `--changes-only` the loop
passes the keyword `last_seen_tag_names` (with value `None`) to
`fetch_repo_summary`, whose signature does not accept it, so `TypeError`
propagates out of `main` on every run that reaches the fetch loop. -/
theorem cli_exit_zero_violated :
    cli_main_run [c8_repo] c8_env false false .absent "Git updates summary"
        "2026-01-01 00:00" (.ok "")
      = .error (.typeError kw_type_error_msg)
    ∧ ∀ (code : Int) (file : FileContent) (report : String),
        cli_main_run [c8_repo] c8_env false false .absent "Git updates summary"
            "2026-01-01 00:00" (.ok "")
          ≠ .ok (code, file, report) := by
  constructor
  · rfl
  · intro code file report h
    rw [show cli_main_run [c8_repo] c8_env false false .absent
          "Git updates summary" "2026-01-01 00:00" (.ok "")
        = .error (.typeError kw_type_error_msg) from rfl] at h
    exact Except.noConfusion h
